import Mathlib

/-!
Verification of the signal-detection and alert-deduplication engine of the
polymarket-alerts bot, as a shallow embedding of `src/alerts.py`,
`src/database.py`, `src/scheduler.py` and `src/config.py`.

Modelling conventions:
* Python floats (volumes, prices, velocities) are modelled as `ℚ`.
* Market records are Python dicts read with `.get(key, default)`; the
  structures below carry the value of each such read (so a missing
  `yes_price` key is the field value `0`, mirroring `get("yes_price", 0)`).
* ISO-timestamp parsing (`is_recently_created`, `datetime.fromisoformat`)
  is abstracted to an `Option ℚ` age in hours: `none` models a missing
  string, a string without a `T`, or a parse failure — all three make the
  source return `False` — and `some a` models a successfully parsed
  timestamp `a` hours in the past.
* SQLite tables are association lists; `datetime('now', '-N hours')` is an
  explicit `cutoff` parameter.
-/

/-- Config constant `VOLUME_THRESHOLDS` from `src/config.py`. -/
def VOLUME_THRESHOLDS : List ℚ := [100000, 250000, 500000, 1000000]

/-- Config constant `DISCOVERY_MIN_VOLUME` from `src/config.py`. -/
def DISCOVERY_MIN_VOLUME : ℚ := 25000

/-- Config constant `ALERT_CAP_PER_CYCLE` from `src/config.py`. -/
def ALERT_CAP_PER_CYCLE : ℕ := 10

/-- A market record as consumed by the detectors in `src/alerts.py`.
Each field is the value of the corresponding dict read:
`event.get("slug")` (empty string models a missing/falsy slug),
`event.get("title")`, `event.get("total_volume", 0)`,
`event.get("created_at", "")` abstracted to an age in hours (see module
doc), and `event.get("yes_price", 0)`. -/
structure Event where
  slug : String
  title : String
  total_volume : ℚ
  created_age : Option ℚ
  yes_price : ℚ
deriving DecidableEq, Repr

/-- `is_recently_created` from `src/alerts.py` (lines 385-413): `False`
when the date string is missing or unparseable (`created_age = none`),
otherwise `hours_old <= max_hours`. -/
def isRecentlyCreated (created_age : Option ℚ) (max_hours : ℚ) : Bool :=
  match created_age with
  | none => false
  | some a => decide (a ≤ max_hours)

/-- The guarded percentage-velocity expression used by every detector in
`src/alerts.py`: `(velocity / total * 100) if total > 0 else 0`. -/
def velocityPct (velocity total : ℚ) : ℚ :=
  if total > 0 then velocity / total * 100 else 0

/-- Python's `max` on a nonempty list (with a default for `[]`, matching
the source's `max(crossed) if crossed else default`). -/
def pyMax (l : List ℚ) (default : ℚ) : ℚ :=
  match l with
  | [] => default
  | x :: xs => xs.foldl max x

/-- Stable insert (descending by key) used to model Python's stable
`list.sort(key=..., reverse=True)`. -/
def insertDescBy (key : α → ℚ) (x : α) : List α → List α
  | [] => [x]
  | y :: ys => if key x < key y then y :: insertDescBy key x ys else x :: y :: ys

/-- Python's `list.sort(key=..., reverse=True)`: a stable descending sort.
Python's sort is stable, so its output is exactly the insertion-sort
output. -/
def sortDescBy (key : α → ℚ) : List α → List α
  | [] => []
  | x :: xs => insertDescBy key x (sortDescBy key xs)

/-- One entry of the `milestones_crossed` list built by
`check_volume_milestones` (`src/alerts.py` lines 536-547). -/
structure MilestoneHit where
  title : String
  slug : String
  threshold : ℚ
  also_crossed : List ℚ
  previous_volume : ℚ
  current_volume : ℚ
  yes_price : ℚ
  velocity : ℚ
  velocity_pct : ℚ
deriving DecidableEq, Repr

/-- One entry of the `discoveries` list built by `check_volume_milestones`
(`src/alerts.py` lines 505-516). -/
structure DiscoveryHit where
  title : String
  slug : String
  current_volume : ℚ
  threshold : ℚ
  yes_price : ℚ
  created_age : Option ℚ
  velocity : ℚ
  velocity_pct : ℚ
deriving DecidableEq, Repr

/-- The four accumulators threaded through the market loop of
`check_volume_milestones`: the two returned candidate lists, the
`record_milestone(slug, threshold, volume)` calls made, and
`baselines_to_update`. -/
structure MilestoneScan where
  milestones : List MilestoneHit
  discoveries : List DiscoveryHit
  recorded : List (String × ℚ × ℚ)
  baselineUpdates : List (String × ℚ)
deriving DecidableEq, Repr

/-- The body of the market loop of `check_volume_milestones`
(`src/alerts.py` lines 473-550), with `record=True`.  `baselines` models
the dict returned by `get_volume_baselines_bulk` (`none` = never
baselined) and `vel1h` the dict returned by `get_volume_deltas_bulk`
(read with `.get(slug, 0)`). -/
def milestoneStep (baselines : String → Option ℚ) (thresholds : List ℚ)
    (vel1h : String → Option ℚ) (minDiscovery maxAgeHours : ℚ)
    (acc : MilestoneScan) (e : Event) : MilestoneScan :=
  if e.slug = "" then acc
  else
    match baselines e.slug with
    | none =>
      let acc := { acc with
        baselineUpdates := acc.baselineUpdates ++ [(e.slug, e.total_volume)],
        recorded := acc.recorded ++
          (thresholds.filter (fun t => decide (e.total_volume ≥ t))).map
            (fun t => (e.slug, t, e.total_volume)) }
      if e.total_volume ≥ minDiscovery ∧
          isRecentlyCreated e.created_age maxAgeHours = true then
        let crossed := thresholds.filter (fun t => decide (e.total_volume ≥ t))
        let highest := pyMax crossed minDiscovery
        let velocity := (vel1h e.slug).getD 0
        { acc with discoveries := acc.discoveries ++
            [{ title := e.title, slug := e.slug,
               current_volume := e.total_volume, threshold := highest,
               yes_price := e.yes_price, created_age := e.created_age,
               velocity := velocity,
               velocity_pct := velocityPct velocity e.total_volume }] }
      else acc
    | some prev =>
      let crossed := thresholds.filter
        (fun t => decide (prev < t ∧ t ≤ e.total_volume))
      let acc := { acc with
        recorded := acc.recorded ++ crossed.map (fun t => (e.slug, t, e.total_volume)) }
      let acc :=
        if crossed = [] then acc
        else
          let highest := pyMax crossed 0
          let velocity := (vel1h e.slug).getD 0
          { acc with milestones := acc.milestones ++
              [{ title := e.title, slug := e.slug, threshold := highest,
                 also_crossed := crossed.filter (fun t => decide (t ≠ highest)),
                 previous_volume := prev, current_volume := e.total_volume,
                 yes_price := e.yes_price, velocity := velocity,
                 velocity_pct := velocityPct velocity e.total_volume }] }
      { acc with baselineUpdates := acc.baselineUpdates ++ [(e.slug, e.total_volume)] }

/-- `check_volume_milestones` (`src/alerts.py` lines 416-560) on the
already-seeded path, starting from the fetched-and-prefiltered event list:
the market loop followed by the two descending sorts of lines 557-558. -/
def checkVolumeMilestones (baselines : String → Option ℚ) (thresholds : List ℚ)
    (vel1h : String → Option ℚ) (minDiscovery maxAgeHours : ℚ)
    (events : List Event) : MilestoneScan :=
  let scan := events.foldl
    (milestoneStep baselines thresholds vel1h minDiscovery maxAgeHours)
    ⟨[], [], [], []⟩
  { scan with
    milestones := sortDescBy MilestoneHit.threshold scan.milestones,
    discoveries := sortDescBy DiscoveryHit.current_volume scan.discoveries }

/-- The milestone candidates contributed by a single market: the loop body
run on empty accumulators. -/
def eventMilestones (baselines : String → Option ℚ) (thresholds : List ℚ)
    (vel1h : String → Option ℚ) (minDiscovery maxAgeHours : ℚ) (e : Event) :
    List MilestoneHit :=
  (milestoneStep baselines thresholds vel1h minDiscovery maxAgeHours ⟨[], [], [], []⟩ e).milestones

/-- The discovery candidates contributed by a single market. -/
def eventDiscoveries (baselines : String → Option ℚ) (thresholds : List ℚ)
    (vel1h : String → Option ℚ) (minDiscovery maxAgeHours : ℚ) (e : Event) :
    List DiscoveryHit :=
  (milestoneStep baselines thresholds vel1h minDiscovery maxAgeHours ⟨[], [], [], []⟩ e).discoveries

/-- The `record_milestone` rows contributed by a single market. -/
def eventRecorded (baselines : String → Option ℚ) (thresholds : List ℚ)
    (vel1h : String → Option ℚ) (minDiscovery maxAgeHours : ℚ) (e : Event) :
    List (String × ℚ × ℚ) :=
  (milestoneStep baselines thresholds vel1h minDiscovery maxAgeHours ⟨[], [], [], []⟩ e).recorded

/-- The baseline updates contributed by a single market. -/
def eventBaselineUpdates (baselines : String → Option ℚ) (thresholds : List ℚ)
    (vel1h : String → Option ℚ) (minDiscovery maxAgeHours : ℚ) (e : Event) :
    List (String × ℚ) :=
  (milestoneStep baselines thresholds vel1h minDiscovery maxAgeHours ⟨[], [], [], []⟩ e).baselineUpdates

/-- One entry of the list returned by `check_wakeup_alerts`
(`src/alerts.py` lines 1355-1365). -/
structure WakeupHit where
  title : String
  slug : String
  yes_price : ℚ
  total_volume : ℚ
  velocity_past : ℚ
  velocity_pct_past : ℚ
  velocity_now : ℚ
  velocity_pct_now : ℚ
deriving DecidableEq, Repr

/-- The body of the market loop of `check_wakeup_alerts` (`src/alerts.py`
lines 1338-1365).  `d1h` and `d6h` model the two `get_volume_deltas_bulk`
dicts (read with `.get(slug, 0)`); `quietHours` is the positive
`quiet_hours` parameter (6 in every call). -/
def wakeupStep (d1h d6h : String → Option ℚ)
    (quietThreshold hotThreshold quietHours : ℚ) (e : Event) :
    Option WakeupHit :=
  if e.slug = "" ∨ e.total_volume = 0 then none
  else
    let velocity1h := (d1h e.slug).getD 0
    let velocityPctNow :=
      if e.total_volume > 0 then velocity1h / e.total_volume * 100 else 0
    let velocity6h := (d6h e.slug).getD 0
    let velocityPctPast :=
      if e.total_volume > 0 then velocity6h / e.total_volume * 100 / quietHours else 0
    if velocityPctPast < quietThreshold ∧ velocityPctNow ≥ hotThreshold then
      some { title := e.title, slug := e.slug, yes_price := e.yes_price,
             total_volume := e.total_volume,
             velocity_past := velocity6h / quietHours,
             velocity_pct_past := velocityPctPast,
             velocity_now := velocity1h,
             velocity_pct_now := velocityPctNow }
    else none

/-- `check_wakeup_alerts` (`src/alerts.py` lines 1300-1370) from the
fetched-and-prefiltered event list: the market loop and the final
descending sort by `velocity_pct_now`. -/
def checkWakeupAlerts (d1h d6h : String → Option ℚ)
    (quietThreshold hotThreshold quietHours : ℚ) (events : List Event) :
    List WakeupHit :=
  sortDescBy WakeupHit.velocity_pct_now
    (events.filterMap (wakeupStep d1h d6h quietThreshold hotThreshold quietHours))

/-- A row of the `get_price_deltas_bulk` dict as read by
`check_fast_mover_alerts`: `price_data.get("delta", 0)` and
`price_data.get("old", 0)`. -/
structure PriceDelta where
  delta : ℚ
  old : ℚ
deriving DecidableEq, Repr

/-- One entry of the list returned by `check_fast_mover_alerts`
(`src/alerts.py` lines 1431-1443).  `direction` is `true` for "up". -/
structure FastMoverHit where
  title : String
  slug : String
  old_price : ℚ
  current_price : ℚ
  price_change : ℚ
  volume_behind : ℚ
  velocity : ℚ
  velocity_pct : ℚ
  total_volume : ℚ
  direction : Bool
deriving DecidableEq, Repr

/-- The body of the market loop of `check_fast_mover_alerts`
(`src/alerts.py` lines 1410-1443).  A slug absent from `priceDeltas`
models `price_deltas.get(slug, {})`, whose `delta` and `old` reads then
default to 0. -/
def fastMoverStep (priceDeltas : String → Option PriceDelta)
    (volumeDeltas vel1h : String → Option ℚ)
    (priceThreshold volumeThreshold : ℚ) (e : Event) : Option FastMoverHit :=
  if e.slug = "" then none
  else
    let priceChange := ((priceDeltas e.slug).map PriceDelta.delta).getD 0
    let oldPrice := ((priceDeltas e.slug).map PriceDelta.old).getD 0
    let volumeBehind := (volumeDeltas e.slug).getD 0
    if |priceChange| ≥ priceThreshold ∧ volumeBehind ≥ volumeThreshold then
      let velocity := (vel1h e.slug).getD 0
      some { title := e.title, slug := e.slug, old_price := oldPrice,
             current_price := e.yes_price, price_change := priceChange,
             volume_behind := volumeBehind, velocity := velocity,
             velocity_pct := velocityPct velocity e.total_volume,
             total_volume := e.total_volume,
             direction := decide (priceChange > 0) }
    else none

/-- One entry of the list returned by `check_early_heat_alerts`
(`src/alerts.py` lines 1527-1536). -/
structure EarlyHeatHit where
  title : String
  slug : String
  yes_price : ℚ
  total_volume : ℚ
  velocity : ℚ
  velocity_pct : ℚ
  hours_ago : ℚ
deriving DecidableEq, Repr

/-- The body of the market loop of `check_early_heat_alerts`
(`src/alerts.py` lines 1498-1536), over the events already filtered to
recently-seen slugs.  `firstSeenAge` models the parsed
`first_seen_at` age in hours (`none` = missing or unparseable, leaving
the source's `hours_ago = 0`). -/
def earlyHeatStep (d1h : String → Option ℚ) (firstSeenAge : String → Option ℚ)
    (maxVolume minVelocityPct : ℚ) (e : Event) : Option EarlyHeatHit :=
  if e.slug = "" ∨ e.total_volume > maxVolume then none
  else
    let velocity := (d1h e.slug).getD 0
    let velPct := velocityPct velocity e.total_volume
    if velPct < minVelocityPct then none
    else
      some { title := e.title, slug := e.slug, yes_price := e.yes_price,
             total_volume := e.total_volume, velocity := velocity,
             velocity_pct := velPct,
             hours_ago := (firstSeenAge e.slug).getD 0 }

/-- A row of the `volume_snapshots` table (`src/database.py` lines
158-165): `(event_slug, volume, recorded_at)`. -/
structure Snap where
  slug : String
  volume : ℚ
  recordedAt : ℚ
deriving DecidableEq, Repr

/-- `ROW_NUMBER() OVER (PARTITION BY event_slug ORDER BY recorded_at
DESC) ... rn = 1`: the row with the greatest `recorded_at`.  SQLite
leaves ties unordered; this model keeps the earliest-inserted row among
ties. -/
def pickLatest : List Snap → Option Snap
  | [] => none
  | s :: rest =>
    match pickLatest rest with
    | none => some s
    | some b => if b.recordedAt > s.recordedAt then some b else some s

/-- The `current_volumes` CTE of `get_volume_deltas_bulk`
(`src/database.py` lines 871-876) restricted to one slug: the volume of
its most recent snapshot. -/
def latestSnapVol (store : List Snap) (slug : String) : Option ℚ :=
  (pickLatest (store.filter (fun r => decide (r.slug = slug)))).map Snap.volume

/-- The `old_volumes` CTE of `get_volume_deltas_bulk` (`src/database.py`
lines 877-883) restricted to one slug: the volume of its most recent
snapshot with `recorded_at <= cutoff`, where `cutoff` models
`datetime('now', '-hours hours')`. -/
def latestSnapVolAtOrBefore (store : List Snap) (slug : String) (cutoff : ℚ) :
    Option ℚ :=
  (pickLatest (store.filter
    (fun r => decide (r.slug = slug ∧ r.recordedAt ≤ cutoff)))).map Snap.volume

/-- `get_volume_deltas_bulk` (`src/database.py` lines 852-901) as the
returned dict: a slug maps to `current - old` exactly when it is in the
queried set and both CTEs produce a row for it. -/
def getVolumeDeltasBulk (store : List Snap) (slugs : List String) (cutoff : ℚ) :
    String → Option ℚ :=
  fun s =>
    if s ∈ slugs then
      match latestSnapVol store s, latestSnapVolAtOrBefore store s cutoff with
      | some cur, some old => some (cur - old)
      | _, _ => none
    else none

/-- The `volume_milestones` table (`src/database.py` lines 119-128):
rows `(event_slug, threshold, volume_at_crossing)` with a
`UNIQUE(event_slug, threshold)` constraint. -/
abbrev MilestoneTable := List (String × ℚ × ℚ)

/-- Whether the table already holds a row for `(slug, threshold)`. -/
def milestoneKeyPresent (db : MilestoneTable) (slug : String) (threshold : ℚ) :
    Bool :=
  db.any (fun r => decide (r.1 = slug ∧ r.2.1 = threshold))

/-- `record_milestone` (`src/database.py` lines 612-621):
`INSERT OR IGNORE` into a table with `UNIQUE(event_slug, threshold)` —
a no-op when the key pair is already present. -/
def recordMilestone (db : MilestoneTable) (slug : String) (threshold : ℚ)
    (volume : ℚ) : MilestoneTable :=
  if milestoneKeyPresent db slug threshold then db
  else db ++ [(slug, threshold, volume)]

/-- How many rows of the table carry a given `(slug, threshold)` key. -/
def milestoneKeyCount (db : MilestoneTable) (slug : String) (threshold : ℚ) : ℕ :=
  (db.filter (fun r => decide (r.1 = slug ∧ r.2.1 = threshold))).length

/-- A sequence of `record_milestone` calls applied to the empty table. -/
def recordMilestoneRuns (ops : List (String × ℚ × ℚ)) : MilestoneTable :=
  ops.foldl (fun db o => recordMilestone db o.1 o.2.1 o.2.2) []

/-- A candidate dict as seen by the dedup filters in `src/scheduler.py`:
the two keys they read, `market.get("slug", "")` and
`market.get("yes_price", 0)` (so a candidate family whose dicts lack a
`yes_price` key carries `0` here). -/
structure SMarket where
  slug : String
  yes_price : ℚ
deriving DecidableEq, Repr

/-- `should_filter_market` (`src/scheduler.py` lines 185-222).
`cycleAlerted` models the `cycle_alerted_slugs` working set and
`recent` the `recently_alerted_data` dict built (in channel mode) from
markets alerted in the last 4 hours, valued at the recorded
`old_data.get("yes_price", 0)`.  Returns `true` when the market must be
blocked. -/
def shouldFilterMarket (cycleAlerted : List String)
    (recent : String → Option ℚ) (m : SMarket) : Bool :=
  if m.slug ∈ cycleAlerted then true
  else
    match recent m.slug with
    | none => false
    | some oldPrice =>
      if oldPrice = 0 then true
      else if |m.yes_price - oldPrice| ≥ 20 then false
      else true

/-- `filter_unseen_markets` (`src/database.py` lines 475-491).
`seenSlugs` models the set of slugs already recorded in `user_alerts`
for this `(telegram_id, alert_type)` pair. -/
def filterUnseenMarkets (seenSlugs : List String) (markets : List SMarket) :
    List SMarket :=
  markets.filter (fun m => decide (m.slug ∉ seenSlugs))

/-- The per-cycle state threaded through the five alert blocks of
`run_alert_cycle` in channel mode (`src/scheduler.py` lines 173-421):
the `cycle_alerted_slugs` working set, the batches actually delivered
(family name and the `to_send` list handed to the bundler and to
`mark_channel_alerted_bulk`), and the per-family `stats` counters. -/
structure CycleState where
  cycleAlerted : List String
  deliveries : List (String × List SMarket)
  statsCounts : List (String × ℕ)
deriving DecidableEq, Repr

/-- One alert block of `run_alert_cycle` in channel mode (e.g. lines
227-246 of `src/scheduler.py` for the wakeup family): filter the
detector's candidates through `should_filter_market`, count them into
`stats`, and if any remain deliver the first `ALERT_CAP_PER_CYCLE` of
them and add their slugs to the working set.  A successful send is
assumed (a failed send delivers nothing and records nothing). -/
def familyStep (recent : String → Option ℚ) (cap : ℕ) (st : CycleState)
    (fam : String × List SMarket) : CycleState :=
  let filtered := fam.2.filter
    (fun m => !shouldFilterMarket st.cycleAlerted recent m)
  let st := { st with statsCounts := st.statsCounts ++ [(fam.1, filtered.length)] }
  if filtered.isEmpty then st
  else
    let toSend := filtered.take cap
    { st with
      deliveries := st.deliveries ++ [(fam.1, toSend)],
      cycleAlerted := st.cycleAlerted ++ toSend.map SMarket.slug }

/-- The alert blocks of `run_alert_cycle` run in priority order over any
family list. -/
def processFamilies (recent : String → Option ℚ) (cap : ℕ)
    (fams : List (String × List SMarket)) (st : CycleState) : CycleState :=
  fams.foldl (familyStep recent cap) st

/-- `run_alert_cycle` in channel mode (`src/scheduler.py` lines 224-421):
the five V2 detector families resolved in the source's fixed order
against an initially empty working set. -/
def runAlertCycleChannel (recent : String → Option ℚ) (cap : ℕ)
    (wakeups movers swings early launches : List SMarket) : CycleState :=
  processFamilies recent cap
    [("wakeup", wakeups), ("fast_mover", movers), ("big_swing", swings),
     ("early_heat", early), ("new_launch", launches)]
    ⟨[], [], []⟩

/-- How many of a list of delivered batches contain a given market. -/
def deliveredCount (ds : List (String × List SMarket)) (slug : String) : ℕ :=
  (ds.filter (fun d => decide (slug ∈ d.2.map SMarket.slug))).length

/-- How many signal families delivered a given market in a cycle. -/
def familiesDelivering (st : CycleState) (slug : String) : ℕ :=
  deliveredCount st.deliveries slug

lemma milestoneKeyCount_eq_zero_of_not_present {db : MilestoneTable}
    {s : String} {t : ℚ} (h : milestoneKeyPresent db s t = false) :
    milestoneKeyCount db s t = 0 := by
  unfold milestoneKeyPresent at h
  unfold milestoneKeyCount
  rw [List.length_eq_zero]
  rw [List.any_eq_false] at h
  rw [List.filter_eq_nil_iff]
  intro a ha
  exact h a ha

lemma milestoneKeyCount_step (db : MilestoneTable) (s0 : String) (t0 v0 : ℚ)
    (h : ∀ s t, milestoneKeyCount db s t ≤ 1) :
    ∀ s t, milestoneKeyCount (recordMilestone db s0 t0 v0) s t ≤ 1 := by
  intro s t
  unfold recordMilestone
  split
  · exact h s t
  · rename_i hnp
    unfold milestoneKeyCount
    rw [List.filter_append, List.length_append]
    by_cases hk : (s0, t0, v0).1 = s ∧ (s0, t0, v0).2.1 = t
    · obtain ⟨hk1, hk2⟩ := hk
      simp only at hk1 hk2
      subst hk1; subst hk2
      have h0 : milestoneKeyCount db s0 t0 = 0 :=
        milestoneKeyCount_eq_zero_of_not_present (Bool.eq_false_iff.mpr hnp)
      unfold milestoneKeyCount at h0
      rw [h0]
      simp [List.filter]
    · have : (List.filter (fun r => decide (r.1 = s ∧ r.2.1 = t))
          [(s0, t0, v0)]) = [] := by
        simp [List.filter, hk]
      rw [this]
      have hst := h s t
      unfold milestoneKeyCount at hst
      simpa using hst

lemma milestoneKeyCount_foldl (ops : List (String × ℚ × ℚ)) :
    ∀ (db : MilestoneTable), (∀ s t, milestoneKeyCount db s t ≤ 1) →
    ∀ s t, milestoneKeyCount
      (ops.foldl (fun d o => recordMilestone d o.1 o.2.1 o.2.2) db) s t ≤ 1 := by
  induction ops with
  | nil => intro db h; exact h
  | cons o rest ih =>
    intro db h
    exact ih _ (milestoneKeyCount_step db o.1 o.2.1 o.2.2 h)

/-- C4: for a fixed `(market_id, threshold)` pair the `volume_milestones`
table never holds more than one row, no matter what sequence of
`record_milestone` calls ran; and `record_milestone` on an
already-present pair is a no-op that leaves the table unchanged rather
than an error. -/
theorem record_milestone_idempotent_and_unique :
    (∀ (db : MilestoneTable) (s : String) (t v : ℚ),
      milestoneKeyPresent db s t = true → recordMilestone db s t v = db) ∧
    (∀ (ops : List (String × ℚ × ℚ)) (s : String) (t : ℚ),
      milestoneKeyCount (recordMilestoneRuns ops) s t ≤ 1) := by
  constructor
  · intro db s t v h
    unfold recordMilestone
    rw [if_pos h]
  · intro ops s t
    unfold recordMilestoneRuns
    refine milestoneKeyCount_foldl ops [] ?_ s t
    intro s' t'
    simp [milestoneKeyCount]

/-- Witness for `record_milestone_idempotent_and_unique`: re-inserting
the already-present pair `("m", 100000)` leaves the stored row (with its
original `volume_at_crossing`) unchanged, and a run with overlapping
data keeps at most one row for the pair. -/
theorem record_milestone_idempotent_and_unique_witness :
    recordMilestone [("m", 100000, 120000)] "m" 100000 130000 =
      [("m", 100000, 120000)] ∧
    milestoneKeyCount (recordMilestoneRuns
      [("m", 100000, 120000), ("m", 100000, 130000), ("m", 250000, 300000)])
      "m" 100000 ≤ 1 :=
  ⟨record_milestone_idempotent_and_unique.1 _ "m" 100000 130000 (by decide),
   record_milestone_idempotent_and_unique.2 _ "m" 100000⟩

/-- C10: in channel mode, a market present in the recently-alerted map
with a stored `yes_price` of 0 is blocked by `should_filter_market`
(returns `True`) whatever its current price — the materiality override
never fires when the stored price is missing or zero. -/
theorem should_filter_blocks_zero_stored_price
    (cyc : List String) (recent : String → Option ℚ) (m : SMarket)
    (h : recent m.slug = some 0) :
    shouldFilterMarket cyc recent m = true := by
  unfold shouldFilterMarket
  split
  · rfl
  · rw [h]
    simp

/-- Witness for `should_filter_blocks_zero_stored_price`: a market
recently alerted with stored price 0 is blocked even after a 95-point
move. -/
theorem should_filter_blocks_zero_stored_price_witness :
    shouldFilterMarket []
      (fun s => if s = "market-m" then some 0 else none)
      ⟨"market-m", 95⟩ = true :=
  should_filter_blocks_zero_stored_price [] _ _ (by decide)

/-- C2 counterexample: a per-user recipient already in Delivered state
for market `market-m` (its slug is in the user's `user_alerts` rows for
the family) gets the market dropped by `filter_unseen_markets` even
though its price moved from 40 to 65 (Δ25 ≥ 20): the materiality
override does not exist on the per-user path. -/
theorem per_user_redelivery_suppressed_despite_big_move :
    filterUnseenMarkets ["market-m"] [⟨"market-m", 65⟩] = [] ∧
    |(65 : ℚ) - 40| ≥ 20 := by
  constructor
  · decide
  · norm_num

/-- C2 (amended): only channel mode re-delivers on material price moves:
a market recently alerted in channel mode with a nonzero recorded price,
and not already alerted this cycle, passes `should_filter_market`
exactly when its price moved at least 20 points from the recorded one;
on the per-user path a market already recorded for the signal family is
always dropped, whatever its price. -/
theorem materiality_override_channel_only :
    (∀ (cyc : List String) (recent : String → Option ℚ) (m : SMarket) (oldP : ℚ),
      m.slug ∉ cyc → recent m.slug = some oldP → oldP ≠ 0 →
      (shouldFilterMarket cyc recent m = false ↔ |m.yes_price - oldP| ≥ 20)) ∧
    (∀ (seen : List String) (ms : List SMarket) (m : SMarket),
      m.slug ∈ seen → m ∉ filterUnseenMarkets seen ms) := by
  constructor
  · intro cyc recent m oldP hcyc hrec hold
    unfold shouldFilterMarket
    rw [if_neg hcyc, hrec]
    show (if oldP = 0 then true
      else if |m.yes_price - oldP| ≥ 20 then false else true) = false ↔
      |m.yes_price - oldP| ≥ 20
    rw [if_neg hold]
    by_cases h : |m.yes_price - oldP| ≥ 20
    · simp [h]
    · simp [h]
  · intro seen ms m hm hmem
    unfold filterUnseenMarkets at hmem
    have := List.of_mem_filter hmem
    simp only [decide_eq_true_eq] at this
    exact this hm

/-- Witness for `materiality_override_channel_only`: recorded price 40 —
a candidate at 65 passes the channel filter, one at 45 is blocked, and
the per-user path drops the 65 candidate anyway. -/
theorem materiality_override_channel_only_witness :
    shouldFilterMarket []
      (fun s => if s = "market-m" then some 40 else none) ⟨"market-m", 65⟩ = false ∧
    shouldFilterMarket []
      (fun s => if s = "market-m" then some 40 else none) ⟨"market-m", 45⟩ = true ∧
    (⟨"market-m", 65⟩ : SMarket) ∉
      filterUnseenMarkets ["market-m"] [⟨"market-m", 65⟩] := by
  refine ⟨?_, ?_, ?_⟩
  · exact (materiality_override_channel_only.1 [] _ _ 40 (by simp) (by decide)
      (by norm_num)).mpr (by norm_num)
  · have h := materiality_override_channel_only.1 []
      (fun s => if s = "market-m" then some 40 else none) ⟨"market-m", 45⟩ 40
      (by simp) (by decide) (by norm_num)
    cases hb : shouldFilterMarket []
        (fun s => if s = "market-m" then some 40 else none) ⟨"market-m", 45⟩ with
    | false =>
      have := h.mp hb
      norm_num at this
    | true => rfl
  · exact materiality_override_channel_only.2 _ _ _ (by decide)

/-- C3: `get_volume_deltas_bulk` omits from its result every queried
market with no snapshot at or before the cutoff (absent, not 0), and
maps every queried market whose latest snapshot and latest
at-or-before-cutoff snapshot carry the same volume to exactly 0. -/
theorem bulk_delta_omitted_or_zero
    (store : List Snap) (slugs : List String) (cutoff : ℚ) (s : String)
    (hs : s ∈ slugs) :
    (store.filter (fun r => decide (r.slug = s ∧ r.recordedAt ≤ cutoff)) = [] →
      getVolumeDeltasBulk store slugs cutoff s = none) ∧
    (∀ v, latestSnapVol store s = some v →
      latestSnapVolAtOrBefore store s cutoff = some v →
      getVolumeDeltasBulk store slugs cutoff s = some 0) := by
  constructor
  · intro hempty
    unfold getVolumeDeltasBulk
    rw [if_pos hs]
    have hold : latestSnapVolAtOrBefore store s cutoff = none := by
      unfold latestSnapVolAtOrBefore
      rw [hempty]
      rfl
    rw [hold]
    cases latestSnapVol store s <;> rfl
  · intro v hcur hold
    unfold getVolumeDeltasBulk
    rw [if_pos hs, hcur, hold]
    simp

/-- Witness for `bulk_delta_omitted_or_zero`: with one snapshot of
market `a` (volume 7 at time 0) and cutoff 5, queried market `b` is
absent from the result and market `a` maps to exactly 0. -/
theorem bulk_delta_omitted_or_zero_witness :
    getVolumeDeltasBulk [⟨"a", 7, 0⟩] ["a", "b"] 5 "b" = none ∧
    getVolumeDeltasBulk [⟨"a", 7, 0⟩] ["a", "b"] 5 "a" = some 0 :=
  ⟨(bulk_delta_omitted_or_zero [⟨"a", 7, 0⟩] ["a", "b"] 5 "b" (by decide)).1
      (by decide),
   (bulk_delta_omitted_or_zero [⟨"a", 7, 0⟩] ["a", "b"] 5 "a" (by decide)).2
      7 (by decide) (by decide)⟩

lemma mem_insertDescBy (key : α → ℚ) (x y : α) (l : List α) :
    y ∈ insertDescBy key x l ↔ y = x ∨ y ∈ l := by
  induction l with
  | nil => simp [insertDescBy]
  | cons z zs ih =>
    unfold insertDescBy
    split
    · simp only [List.mem_cons, ih]
      tauto
    · simp [List.mem_cons]

lemma mem_sortDescBy (key : α → ℚ) (x : α) (l : List α) :
    x ∈ sortDescBy key l ↔ x ∈ l := by
  induction l with
  | nil => simp [sortDescBy]
  | cons z zs ih =>
    unfold sortDescBy
    rw [mem_insertDescBy, ih]
    simp

lemma foldl_max_bounds (xs : List ℚ) :
    ∀ x : ℚ, x ≤ xs.foldl max x ∧ ∀ t ∈ xs, t ≤ xs.foldl max x := by
  induction xs with
  | nil => intro x; simp
  | cons y ys ih =>
    intro x
    have h := ih (max x y)
    constructor
    · exact le_trans (le_max_left x y) h.1
    · intro t ht
      rcases List.mem_cons.mp ht with rfl | ht
      · exact le_trans (le_max_right x t) h.1
      · exact h.2 t ht

lemma foldl_max_mem (xs : List ℚ) :
    ∀ x : ℚ, xs.foldl max x = x ∨ xs.foldl max x ∈ xs := by
  induction xs with
  | nil => intro x; simp
  | cons y ys ih =>
    intro x
    rcases ih (max x y) with h | h
    · rcases max_choice x y with hm | hm
      · left
        rw [List.foldl_cons, h, hm]
      · right
        rw [List.foldl_cons, h, hm]
        exact List.mem_cons_self y ys
    · right
      exact List.mem_cons_of_mem y h

lemma pyMax_mem {l : List ℚ} (h : l ≠ []) (d : ℚ) : pyMax l d ∈ l := by
  cases l with
  | nil => exact absurd rfl h
  | cons x xs =>
    show xs.foldl max x ∈ x :: xs
    rcases foldl_max_mem xs x with h' | h'
    · rw [h']
      exact List.mem_cons_self x xs
    · exact List.mem_cons_of_mem x h'

lemma le_pyMax {l : List ℚ} {t : ℚ} (ht : t ∈ l) (d : ℚ) : t ≤ pyMax l d := by
  cases l with
  | nil => simp at ht
  | cons x xs =>
    show t ≤ xs.foldl max x
    rcases List.mem_cons.mp ht with rfl | ht
    · exact (foldl_max_bounds xs t).1
    · exact (foldl_max_bounds xs x).2 t ht

/-- The milestone candidate built for a baselined market whose crossed
list is nonempty (`src/alerts.py` lines 527-547). -/
def milestoneHitOf (thresholds : List ℚ) (vel1h : String → Option ℚ)
    (prev : ℚ) (e : Event) : MilestoneHit :=
  let crossed := thresholds.filter (fun t => decide (prev < t ∧ t ≤ e.total_volume))
  { title := e.title, slug := e.slug, threshold := pyMax crossed 0,
    also_crossed := crossed.filter (fun t => decide (t ≠ pyMax crossed 0)),
    previous_volume := prev, current_volume := e.total_volume,
    yes_price := e.yes_price, velocity := (vel1h e.slug).getD 0,
    velocity_pct := velocityPct ((vel1h e.slug).getD 0) e.total_volume }

/-- The discovery candidate built for a first-seen market that passes the
discovery gate (`src/alerts.py` lines 496-516). -/
def discoveryHitOf (thresholds : List ℚ) (vel1h : String → Option ℚ)
    (minDiscovery : ℚ) (e : Event) : DiscoveryHit :=
  let crossed := thresholds.filter (fun t => decide (e.total_volume ≥ t))
  { title := e.title, slug := e.slug, current_volume := e.total_volume,
    threshold := pyMax crossed minDiscovery, yes_price := e.yes_price,
    created_age := e.created_age, velocity := (vel1h e.slug).getD 0,
    velocity_pct := velocityPct ((vel1h e.slug).getD 0) e.total_volume }

lemma milestoneStep_skip (baselines : String → Option ℚ) (thresholds : List ℚ)
    (vel1h : String → Option ℚ) (minDiscovery maxAgeHours : ℚ)
    (acc : MilestoneScan) (e : Event) (h : e.slug = "") :
    milestoneStep baselines thresholds vel1h minDiscovery maxAgeHours acc e = acc := by
  unfold milestoneStep
  rw [if_pos h]

lemma milestoneStep_new (baselines : String → Option ℚ) (thresholds : List ℚ)
    (vel1h : String → Option ℚ) (minDiscovery maxAgeHours : ℚ)
    (acc : MilestoneScan) (e : Event) (h : ¬ e.slug = "")
    (hb : baselines e.slug = none) :
    milestoneStep baselines thresholds vel1h minDiscovery maxAgeHours acc e =
    { acc with
      discoveries := acc.discoveries ++
        (if e.total_volume ≥ minDiscovery ∧
            isRecentlyCreated e.created_age maxAgeHours = true
         then [discoveryHitOf thresholds vel1h minDiscovery e] else []),
      recorded := acc.recorded ++
        (thresholds.filter (fun t => decide (e.total_volume ≥ t))).map
          (fun t => (e.slug, t, e.total_volume)),
      baselineUpdates := acc.baselineUpdates ++ [(e.slug, e.total_volume)] } := by
  unfold milestoneStep
  rw [if_neg h, hb]
  dsimp only
  split
  next => simp [discoveryHitOf]
  next => simp

lemma milestoneStep_prev (baselines : String → Option ℚ) (thresholds : List ℚ)
    (vel1h : String → Option ℚ) (minDiscovery maxAgeHours : ℚ)
    (acc : MilestoneScan) (e : Event) (prev : ℚ) (h : ¬ e.slug = "")
    (hb : baselines e.slug = some prev) :
    milestoneStep baselines thresholds vel1h minDiscovery maxAgeHours acc e =
    { acc with
      milestones := acc.milestones ++
        (if thresholds.filter (fun t => decide (prev < t ∧ t ≤ e.total_volume)) = []
         then [] else [milestoneHitOf thresholds vel1h prev e]),
      recorded := acc.recorded ++
        (thresholds.filter (fun t => decide (prev < t ∧ t ≤ e.total_volume))).map
          (fun t => (e.slug, t, e.total_volume)),
      baselineUpdates := acc.baselineUpdates ++ [(e.slug, e.total_volume)] } := by
  unfold milestoneStep
  rw [if_neg h, hb]
  dsimp only
  split
  next hc => simp [hc]
  next hc => simp [milestoneHitOf]

lemma milestoneStep_decomp (baselines : String → Option ℚ) (thresholds : List ℚ)
    (vel1h : String → Option ℚ) (minDiscovery maxAgeHours : ℚ)
    (acc : MilestoneScan) (e : Event) :
    milestoneStep baselines thresholds vel1h minDiscovery maxAgeHours acc e =
    { milestones := acc.milestones ++
        eventMilestones baselines thresholds vel1h minDiscovery maxAgeHours e,
      discoveries := acc.discoveries ++
        eventDiscoveries baselines thresholds vel1h minDiscovery maxAgeHours e,
      recorded := acc.recorded ++
        eventRecorded baselines thresholds vel1h minDiscovery maxAgeHours e,
      baselineUpdates := acc.baselineUpdates ++
        eventBaselineUpdates baselines thresholds vel1h minDiscovery maxAgeHours e } := by
  unfold eventMilestones eventDiscoveries eventRecorded eventBaselineUpdates
  by_cases h : e.slug = ""
  · rw [milestoneStep_skip _ _ _ _ _ acc e h, milestoneStep_skip _ _ _ _ _ _ e h]
    simp
  · cases hb : baselines e.slug with
    | none =>
      rw [milestoneStep_new _ _ _ _ _ acc e h hb,
        milestoneStep_new _ _ _ _ _ _ e h hb]
      simp
    | some prev =>
      rw [milestoneStep_prev _ _ _ _ _ acc e prev h hb,
        milestoneStep_prev _ _ _ _ _ _ e prev h hb]
      simp

lemma foldl_milestoneStep (baselines : String → Option ℚ) (thresholds : List ℚ)
    (vel1h : String → Option ℚ) (minDiscovery maxAgeHours : ℚ)
    (events : List Event) :
    ∀ acc : MilestoneScan,
    events.foldl (milestoneStep baselines thresholds vel1h minDiscovery maxAgeHours) acc =
    { milestones := acc.milestones ++
        (events.map (eventMilestones baselines thresholds vel1h minDiscovery maxAgeHours)).flatten,
      discoveries := acc.discoveries ++
        (events.map (eventDiscoveries baselines thresholds vel1h minDiscovery maxAgeHours)).flatten,
      recorded := acc.recorded ++
        (events.map (eventRecorded baselines thresholds vel1h minDiscovery maxAgeHours)).flatten,
      baselineUpdates := acc.baselineUpdates ++
        (events.map (eventBaselineUpdates baselines thresholds vel1h minDiscovery maxAgeHours)).flatten } := by
  induction events with
  | nil => intro acc; simp
  | cons e rest ih =>
    intro acc
    rw [List.foldl_cons, milestoneStep_decomp, ih]
    simp

lemma mem_milestones_run (baselines : String → Option ℚ) (thresholds : List ℚ)
    (vel1h : String → Option ℚ) (minDiscovery maxAgeHours : ℚ)
    (events : List Event) (c : MilestoneHit) :
    c ∈ (checkVolumeMilestones baselines thresholds vel1h minDiscovery maxAgeHours
      events).milestones ↔
    ∃ e ∈ events,
      c ∈ eventMilestones baselines thresholds vel1h minDiscovery maxAgeHours e := by
  unfold checkVolumeMilestones
  rw [mem_sortDescBy, foldl_milestoneStep]
  simp [List.mem_flatten]

lemma mem_discoveries_run (baselines : String → Option ℚ) (thresholds : List ℚ)
    (vel1h : String → Option ℚ) (minDiscovery maxAgeHours : ℚ)
    (events : List Event) (d : DiscoveryHit) :
    d ∈ (checkVolumeMilestones baselines thresholds vel1h minDiscovery maxAgeHours
      events).discoveries ↔
    ∃ e ∈ events,
      d ∈ eventDiscoveries baselines thresholds vel1h minDiscovery maxAgeHours e := by
  unfold checkVolumeMilestones
  rw [mem_sortDescBy, foldl_milestoneStep]
  simp [List.mem_flatten]

lemma mem_recorded_run (baselines : String → Option ℚ) (thresholds : List ℚ)
    (vel1h : String → Option ℚ) (minDiscovery maxAgeHours : ℚ)
    (events : List Event) (r : String × ℚ × ℚ) :
    r ∈ (checkVolumeMilestones baselines thresholds vel1h minDiscovery maxAgeHours
      events).recorded ↔
    ∃ e ∈ events,
      r ∈ eventRecorded baselines thresholds vel1h minDiscovery maxAgeHours e := by
  unfold checkVolumeMilestones
  rw [foldl_milestoneStep]
  simp [List.mem_flatten]

lemma mem_baselineUpdates_run (baselines : String → Option ℚ) (thresholds : List ℚ)
    (vel1h : String → Option ℚ) (minDiscovery maxAgeHours : ℚ)
    (events : List Event) (r : String × ℚ) :
    r ∈ (checkVolumeMilestones baselines thresholds vel1h minDiscovery maxAgeHours
      events).baselineUpdates ↔
    ∃ e ∈ events,
      r ∈ eventBaselineUpdates baselines thresholds vel1h minDiscovery maxAgeHours e := by
  unfold checkVolumeMilestones
  rw [foldl_milestoneStep]
  simp [List.mem_flatten]

lemma eventMilestones_prev (baselines : String → Option ℚ) (thresholds : List ℚ)
    (vel1h : String → Option ℚ) (minDiscovery maxAgeHours : ℚ) (e : Event)
    (prev : ℚ) (h : ¬ e.slug = "") (hb : baselines e.slug = some prev) :
    eventMilestones baselines thresholds vel1h minDiscovery maxAgeHours e =
    if thresholds.filter (fun t => decide (prev < t ∧ t ≤ e.total_volume)) = []
    then [] else [milestoneHitOf thresholds vel1h prev e] := by
  unfold eventMilestones
  rw [milestoneStep_prev _ _ _ _ _ _ e prev h hb]
  simp

lemma eventMilestones_new (baselines : String → Option ℚ) (thresholds : List ℚ)
    (vel1h : String → Option ℚ) (minDiscovery maxAgeHours : ℚ) (e : Event)
    (h : ¬ e.slug = "") (hb : baselines e.slug = none) :
    eventMilestones baselines thresholds vel1h minDiscovery maxAgeHours e = [] := by
  unfold eventMilestones
  rw [milestoneStep_new _ _ _ _ _ _ e h hb]

lemma eventMilestones_skip (baselines : String → Option ℚ) (thresholds : List ℚ)
    (vel1h : String → Option ℚ) (minDiscovery maxAgeHours : ℚ) (e : Event)
    (h : e.slug = "") :
    eventMilestones baselines thresholds vel1h minDiscovery maxAgeHours e = [] := by
  unfold eventMilestones
  rw [milestoneStep_skip _ _ _ _ _ _ e h]

lemma eventDiscoveries_prev (baselines : String → Option ℚ) (thresholds : List ℚ)
    (vel1h : String → Option ℚ) (minDiscovery maxAgeHours : ℚ) (e : Event)
    (prev : ℚ) (h : ¬ e.slug = "") (hb : baselines e.slug = some prev) :
    eventDiscoveries baselines thresholds vel1h minDiscovery maxAgeHours e = [] := by
  unfold eventDiscoveries
  rw [milestoneStep_prev _ _ _ _ _ _ e prev h hb]

lemma eventDiscoveries_new (baselines : String → Option ℚ) (thresholds : List ℚ)
    (vel1h : String → Option ℚ) (minDiscovery maxAgeHours : ℚ) (e : Event)
    (h : ¬ e.slug = "") (hb : baselines e.slug = none) :
    eventDiscoveries baselines thresholds vel1h minDiscovery maxAgeHours e =
    (if e.total_volume ≥ minDiscovery ∧
        isRecentlyCreated e.created_age maxAgeHours = true
     then [discoveryHitOf thresholds vel1h minDiscovery e] else []) := by
  unfold eventDiscoveries
  rw [milestoneStep_new _ _ _ _ _ _ e h hb]
  simp

lemma eventDiscoveries_skip (baselines : String → Option ℚ) (thresholds : List ℚ)
    (vel1h : String → Option ℚ) (minDiscovery maxAgeHours : ℚ) (e : Event)
    (h : e.slug = "") :
    eventDiscoveries baselines thresholds vel1h minDiscovery maxAgeHours e = [] := by
  unfold eventDiscoveries
  rw [milestoneStep_skip _ _ _ _ _ _ e h]

lemma eventRecorded_prev (baselines : String → Option ℚ) (thresholds : List ℚ)
    (vel1h : String → Option ℚ) (minDiscovery maxAgeHours : ℚ) (e : Event)
    (prev : ℚ) (h : ¬ e.slug = "") (hb : baselines e.slug = some prev) :
    eventRecorded baselines thresholds vel1h minDiscovery maxAgeHours e =
    (thresholds.filter (fun t => decide (prev < t ∧ t ≤ e.total_volume))).map
      (fun t => (e.slug, t, e.total_volume)) := by
  unfold eventRecorded
  rw [milestoneStep_prev _ _ _ _ _ _ e prev h hb]
  simp

lemma eventRecorded_new (baselines : String → Option ℚ) (thresholds : List ℚ)
    (vel1h : String → Option ℚ) (minDiscovery maxAgeHours : ℚ) (e : Event)
    (h : ¬ e.slug = "") (hb : baselines e.slug = none) :
    eventRecorded baselines thresholds vel1h minDiscovery maxAgeHours e =
    (thresholds.filter (fun t => decide (e.total_volume ≥ t))).map
      (fun t => (e.slug, t, e.total_volume)) := by
  unfold eventRecorded
  rw [milestoneStep_new _ _ _ _ _ _ e h hb]
  simp

lemma eventRecorded_skip (baselines : String → Option ℚ) (thresholds : List ℚ)
    (vel1h : String → Option ℚ) (minDiscovery maxAgeHours : ℚ) (e : Event)
    (h : e.slug = "") :
    eventRecorded baselines thresholds vel1h minDiscovery maxAgeHours e = [] := by
  unfold eventRecorded
  rw [milestoneStep_skip _ _ _ _ _ _ e h]

lemma eventBaselineUpdates_not_skip (baselines : String → Option ℚ)
    (thresholds : List ℚ) (vel1h : String → Option ℚ)
    (minDiscovery maxAgeHours : ℚ) (e : Event) (h : ¬ e.slug = "") :
    eventBaselineUpdates baselines thresholds vel1h minDiscovery maxAgeHours e =
    [(e.slug, e.total_volume)] := by
  unfold eventBaselineUpdates
  cases hb : baselines e.slug with
  | none =>
    rw [milestoneStep_new _ _ _ _ _ _ e h hb]
    simp
  | some prev =>
    rw [milestoneStep_prev _ _ _ _ _ _ e prev h hb]
    simp

lemma slug_of_mem_eventMilestones {baselines : String → Option ℚ}
    {thresholds : List ℚ} {vel1h : String → Option ℚ}
    {minDiscovery maxAgeHours : ℚ} {e : Event} {c : MilestoneHit}
    (hc : c ∈ eventMilestones baselines thresholds vel1h minDiscovery maxAgeHours e) :
    c.slug = e.slug := by
  by_cases h : e.slug = ""
  · rw [eventMilestones_skip _ _ _ _ _ _ h] at hc
    simp at hc
  · cases hb : baselines e.slug with
    | none =>
      rw [eventMilestones_new _ _ _ _ _ _ h hb] at hc
      simp at hc
    | some prev =>
      rw [eventMilestones_prev _ _ _ _ _ _ prev h hb] at hc
      split at hc
      · simp at hc
      · have : c = milestoneHitOf thresholds vel1h prev e := by simpa using hc
        rw [this]
        rfl

lemma slug_of_mem_eventDiscoveries {baselines : String → Option ℚ}
    {thresholds : List ℚ} {vel1h : String → Option ℚ}
    {minDiscovery maxAgeHours : ℚ} {e : Event} {d : DiscoveryHit}
    (hd : d ∈ eventDiscoveries baselines thresholds vel1h minDiscovery maxAgeHours e) :
    d.slug = e.slug := by
  by_cases h : e.slug = ""
  · rw [eventDiscoveries_skip _ _ _ _ _ _ h] at hd
    simp at hd
  · cases hb : baselines e.slug with
    | none =>
      rw [eventDiscoveries_new _ _ _ _ _ _ h hb] at hd
      split at hd
      · have : d = discoveryHitOf thresholds vel1h minDiscovery e := by simpa using hd
        rw [this]
        rfl
      · simp at hd
    | some prev =>
      rw [eventDiscoveries_prev _ _ _ _ _ _ prev h hb] at hd
      simp at hd

lemma fst_of_mem_eventRecorded {baselines : String → Option ℚ}
    {thresholds : List ℚ} {vel1h : String → Option ℚ}
    {minDiscovery maxAgeHours : ℚ} {e : Event} {r : String × ℚ × ℚ}
    (hr : r ∈ eventRecorded baselines thresholds vel1h minDiscovery maxAgeHours e) :
    r.1 = e.slug := by
  by_cases h : e.slug = ""
  · rw [eventRecorded_skip _ _ _ _ _ _ h] at hr
    simp at hr
  · cases hb : baselines e.slug with
    | none =>
      rw [eventRecorded_new _ _ _ _ _ _ h hb] at hr
      obtain ⟨t, _, rfl⟩ := List.mem_map.mp hr
      rfl
    | some prev =>
      rw [eventRecorded_prev _ _ _ _ _ _ prev h hb] at hr
      obtain ⟨t, _, rfl⟩ := List.mem_map.mp hr
      rfl

/-- C1: for every market with an existing volume baseline (and a unique,
nonempty slug in the tick's event list), `check_volume_milestones`
produces a milestone candidate for it exactly when some configured
threshold `T` satisfies `previous_volume < T <= current_volume`; that
candidate's `threshold` is the highest crossed threshold and its
`also_crossed` holds exactly the lower thresholds crossed in the same
tick. -/
theorem milestone_candidate_iff_crossing
    (baselines : String → Option ℚ) (thresholds : List ℚ)
    (vel1h : String → Option ℚ) (minDiscovery maxAgeHours : ℚ)
    (events : List Event) (e : Event) (prev : ℚ)
    (hnd : (events.map Event.slug).Nodup)
    (he : e ∈ events) (hslug : ¬ e.slug = "")
    (hb : baselines e.slug = some prev) :
    ((∃ c ∈ (checkVolumeMilestones baselines thresholds vel1h minDiscovery
        maxAgeHours events).milestones, c.slug = e.slug) ↔
      ∃ t ∈ thresholds, prev < t ∧ t ≤ e.total_volume) ∧
    ∀ c ∈ (checkVolumeMilestones baselines thresholds vel1h minDiscovery
        maxAgeHours events).milestones, c.slug = e.slug →
      (c.threshold ∈ thresholds ∧ prev < c.threshold ∧
        c.threshold ≤ e.total_volume ∧
        ∀ t ∈ thresholds, prev < t → t ≤ e.total_volume → t ≤ c.threshold) ∧
      ∀ t : ℚ, t ∈ c.also_crossed ↔
        (t ∈ thresholds ∧ prev < t ∧ t ≤ e.total_volume ∧ t < c.threshold) := by
  have hInj : ∀ e' ∈ events, e'.slug = e.slug → e' = e := by
    intro e' he' hs
    exact List.inj_on_of_nodup_map hnd he' he hs
  have hmemE : ∀ c : MilestoneHit,
      (c ∈ (checkVolumeMilestones baselines thresholds vel1h minDiscovery
        maxAgeHours events).milestones ∧ c.slug = e.slug) ↔
      c ∈ eventMilestones baselines thresholds vel1h minDiscovery maxAgeHours e := by
    intro c
    constructor
    · rintro ⟨hc, hcs⟩
      obtain ⟨e', he', hce'⟩ := (mem_milestones_run _ _ _ _ _ _ _).mp hc
      have hss : e'.slug = e.slug := by
        rw [← slug_of_mem_eventMilestones hce', hcs]
      rw [hInj e' he' hss] at hce'
      exact hce'
    · intro hc
      exact ⟨(mem_milestones_run _ _ _ _ _ _ _).mpr ⟨e, he, hc⟩,
        slug_of_mem_eventMilestones hc⟩
  have hEm := eventMilestones_prev baselines thresholds vel1h minDiscovery
    maxAgeHours e prev hslug hb
  have hfilter_mem : ∀ t : ℚ,
      t ∈ thresholds.filter (fun t => decide (prev < t ∧ t ≤ e.total_volume)) ↔
      (t ∈ thresholds ∧ prev < t ∧ t ≤ e.total_volume) := by
    intro t
    rw [List.mem_filter]
    simp
  constructor
  · constructor
    · rintro ⟨c, hc, hcs⟩
      have hcE := (hmemE c).mp ⟨hc, hcs⟩
      rw [hEm] at hcE
      by_cases hf : thresholds.filter
          (fun t => decide (prev < t ∧ t ≤ e.total_volume)) = []
      · rw [if_pos hf] at hcE
        simp at hcE
      · obtain ⟨t, ht⟩ := List.exists_mem_of_ne_nil _ hf
        exact ⟨t, (hfilter_mem t).mp ht⟩
    · rintro ⟨t, ht, hlt, hle⟩
      have hf : thresholds.filter
          (fun t => decide (prev < t ∧ t ≤ e.total_volume)) ≠ [] := by
        intro hnil
        have : t ∈ thresholds.filter
            (fun t => decide (prev < t ∧ t ≤ e.total_volume)) :=
          (hfilter_mem t).mpr ⟨ht, hlt, hle⟩
        rw [hnil] at this
        simp at this
      refine ⟨milestoneHitOf thresholds vel1h prev e, ?_, rfl⟩
      have hmem : milestoneHitOf thresholds vel1h prev e ∈
          eventMilestones baselines thresholds vel1h minDiscovery maxAgeHours e := by
        rw [hEm, if_neg hf]
        simp
      exact ((hmemE _).mpr hmem).1
  · intro c hc hcs
    have hcE := (hmemE c).mp ⟨hc, hcs⟩
    rw [hEm] at hcE
    by_cases hf : thresholds.filter
        (fun t => decide (prev < t ∧ t ≤ e.total_volume)) = []
    · rw [if_pos hf] at hcE
      simp at hcE
    · rw [if_neg hf] at hcE
      have hceq : c = milestoneHitOf thresholds vel1h prev e := by
        simpa using hcE
      subst hceq
      have hthr : (milestoneHitOf thresholds vel1h prev e).threshold =
          pyMax (thresholds.filter
            (fun t => decide (prev < t ∧ t ≤ e.total_volume))) 0 := rfl
      have halso : (milestoneHitOf thresholds vel1h prev e).also_crossed =
          (thresholds.filter
            (fun t => decide (prev < t ∧ t ≤ e.total_volume))).filter
            (fun t => decide (t ≠ pyMax (thresholds.filter
              (fun t => decide (prev < t ∧ t ≤ e.total_volume))) 0)) := rfl
      have hmax_mem := pyMax_mem hf (0 : ℚ)
      have hmax_props := (hfilter_mem _).mp hmax_mem
      constructor
      · rw [hthr]
        refine ⟨hmax_props.1, hmax_props.2.1, hmax_props.2.2, ?_⟩
        intro t ht hlt hle
        exact le_pyMax ((hfilter_mem t).mpr ⟨ht, hlt, hle⟩) 0
      · intro t
        rw [halso, hthr]
        rw [List.mem_filter]
        constructor
        · rintro ⟨htf, hne⟩
          have hprops := (hfilter_mem t).mp htf
          have hle := le_pyMax htf (0 : ℚ)
          have hne' : t ≠ pyMax (thresholds.filter
              (fun t => decide (prev < t ∧ t ≤ e.total_volume))) 0 := by
            simpa using hne
          exact ⟨hprops.1, hprops.2.1, hprops.2.2, lt_of_le_of_ne hle hne'⟩
        · rintro ⟨ht, hlt, hle, hltmax⟩
          refine ⟨(hfilter_mem t).mpr ⟨ht, hlt, hle⟩, ?_⟩
          simpa using ne_of_lt hltmax

lemma isRecentlyCreated_iff (o : Option ℚ) (m : ℚ) :
    isRecentlyCreated o m = true ↔ ∃ a, o = some a ∧ a ≤ m := by
  cases o <;> simp [isRecentlyCreated]

/-- C5 counterexample: a first-seen market (no baseline) at $150,000 —
above the configured $100,000 threshold — created 10 hours ago gets no
milestone candidate but does get a discovery candidate, so
`check_volume_milestones` emits one candidate alert for it, not zero. -/
theorem first_seen_discovery_alert_counterexample :
    (checkVolumeMilestones (fun _ => none) VOLUME_THRESHOLDS (fun _ => none)
      DISCOVERY_MIN_VOLUME 48
      [⟨"market-y", "Y", 150000, some 10, 50⟩]).milestones = [] ∧
    (checkVolumeMilestones (fun _ => none) VOLUME_THRESHOLDS (fun _ => none)
      DISCOVERY_MIN_VOLUME 48
      [⟨"market-y", "Y", 150000, some 10, 50⟩]).discoveries ≠ [] ∧
    (150000 : ℚ) ≥ 100000 ∧ (100000 : ℚ) ∈ VOLUME_THRESHOLDS := by
  refine ⟨by decide, by decide, by norm_num, by decide⟩

/-- C5 (amended): a first-seen market with a unique nonempty slug gets a
baseline row and a threshold-crossing row for exactly the already
satisfied thresholds and zero *milestone* candidates; a *discovery*
candidate may still be emitted when the discovery volume floor and
recency conditions hold. -/
theorem first_seen_records_but_no_milestone_alert
    (baselines : String → Option ℚ) (thresholds : List ℚ)
    (vel1h : String → Option ℚ) (minDiscovery maxAgeHours : ℚ)
    (events : List Event) (e : Event)
    (hnd : (events.map Event.slug).Nodup)
    (he : e ∈ events) (hslug : ¬ e.slug = "")
    (hb : baselines e.slug = none) :
    (¬ ∃ c ∈ (checkVolumeMilestones baselines thresholds vel1h minDiscovery
        maxAgeHours events).milestones, c.slug = e.slug) ∧
    (∀ t v : ℚ, (e.slug, t, v) ∈ (checkVolumeMilestones baselines thresholds
        vel1h minDiscovery maxAgeHours events).recorded ↔
      (t ∈ thresholds ∧ e.total_volume ≥ t ∧ v = e.total_volume)) ∧
    (e.slug, e.total_volume) ∈ (checkVolumeMilestones baselines thresholds
      vel1h minDiscovery maxAgeHours events).baselineUpdates := by
  have hInj : ∀ e' ∈ events, e'.slug = e.slug → e' = e := by
    intro e' he' hs
    exact List.inj_on_of_nodup_map hnd he' he hs
  refine ⟨?_, ?_, ?_⟩
  · rintro ⟨c, hc, hcs⟩
    obtain ⟨e', he', hce'⟩ := (mem_milestones_run _ _ _ _ _ _ _).mp hc
    have hss : e'.slug = e.slug := by
      rw [← slug_of_mem_eventMilestones hce', hcs]
    rw [hInj e' he' hss] at hce'
    rw [eventMilestones_new _ _ _ _ _ _ hslug hb] at hce'
    simp at hce'
  · intro t v
    constructor
    · intro hr
      obtain ⟨e', he', hre'⟩ := (mem_recorded_run _ _ _ _ _ _ _).mp hr
      have hss : e'.slug = e.slug := (fst_of_mem_eventRecorded hre').symm
      rw [hInj e' he' hss] at hre'
      rw [eventRecorded_new _ _ _ _ _ _ hslug hb] at hre'
      obtain ⟨t0, ht0, heq⟩ := List.mem_map.mp hre'
      obtain ⟨ht0m, ht0p⟩ := List.mem_filter.mp ht0
      injection heq with h1 h2
      injection h2 with h2a h2b
      subst h2a
      subst h2b
      exact ⟨ht0m, by simpa using ht0p, rfl⟩
    · rintro ⟨ht, hge, rfl⟩
      apply (mem_recorded_run _ _ _ _ _ _ _).mpr
      refine ⟨e, he, ?_⟩
      rw [eventRecorded_new _ _ _ _ _ _ hslug hb]
      apply List.mem_map.mpr
      exact ⟨t, List.mem_filter.mpr ⟨ht, by simpa using hge⟩, rfl⟩
  · apply (mem_baselineUpdates_run _ _ _ _ _ _ _).mpr
    refine ⟨e, he, ?_⟩
    rw [eventBaselineUpdates_not_skip _ _ _ _ _ _ hslug]
    simp

/-- Witness for `first_seen_records_but_no_milestone_alert`: the
$150,000 first-seen market gets crossing rows for exactly the $100,000
threshold, a baseline row, and no milestone candidate. -/
theorem first_seen_records_but_no_milestone_alert_witness :
    (¬ ∃ c ∈ (checkVolumeMilestones (fun _ => none) VOLUME_THRESHOLDS
        (fun _ => none) DISCOVERY_MIN_VOLUME 48
        [⟨"market-y", "Y", 150000, some 10, 50⟩]).milestones,
      c.slug = "market-y") ∧
    ("market-y", (100000 : ℚ), (150000 : ℚ)) ∈
      (checkVolumeMilestones (fun _ => none) VOLUME_THRESHOLDS (fun _ => none)
        DISCOVERY_MIN_VOLUME 48
        [⟨"market-y", "Y", 150000, some 10, 50⟩]).recorded ∧
    ("market-y", (150000 : ℚ)) ∈
      (checkVolumeMilestones (fun _ => none) VOLUME_THRESHOLDS (fun _ => none)
        DISCOVERY_MIN_VOLUME 48
        [⟨"market-y", "Y", 150000, some 10, 50⟩]).baselineUpdates := by
  have h := first_seen_records_but_no_milestone_alert (fun _ => none)
    VOLUME_THRESHOLDS (fun _ => none) DISCOVERY_MIN_VOLUME 48
    [⟨"market-y", "Y", 150000, some 10, 50⟩]
    ⟨"market-y", "Y", 150000, some 10, 50⟩
    (by decide) (by decide) (by decide) rfl
  exact ⟨h.1, (h.2.1 100000 150000).mpr ⟨by decide, by norm_num, rfl⟩, h.2.2⟩

/-- C6: a first-seen market (unique nonempty slug, volume at or above the
discovery floor) yields a discovery candidate exactly when its creation
timestamp is present, parseable and within the recency window; with no
usable creation timestamp it is never treated as a discovery. -/
theorem discovery_iff_recently_created
    (baselines : String → Option ℚ) (thresholds : List ℚ)
    (vel1h : String → Option ℚ) (minDiscovery maxAgeHours : ℚ)
    (events : List Event) (e : Event)
    (hnd : (events.map Event.slug).Nodup)
    (he : e ∈ events) (hslug : ¬ e.slug = "")
    (hb : baselines e.slug = none)
    (hvol : e.total_volume ≥ minDiscovery) :
    ((∃ d ∈ (checkVolumeMilestones baselines thresholds vel1h minDiscovery
        maxAgeHours events).discoveries, d.slug = e.slug) ↔
      ∃ a, e.created_age = some a ∧ a ≤ maxAgeHours) ∧
    (e.created_age = none →
      ¬ ∃ d ∈ (checkVolumeMilestones baselines thresholds vel1h minDiscovery
        maxAgeHours events).discoveries, d.slug = e.slug) := by
  have hInj : ∀ e' ∈ events, e'.slug = e.slug → e' = e := by
    intro e' he' hs
    exact List.inj_on_of_nodup_map hnd he' he hs
  have hiff : (∃ d ∈ (checkVolumeMilestones baselines thresholds vel1h
      minDiscovery maxAgeHours events).discoveries, d.slug = e.slug) ↔
      ∃ a, e.created_age = some a ∧ a ≤ maxAgeHours := by
    constructor
    · rintro ⟨d, hd, hds⟩
      obtain ⟨e', he', hde'⟩ := (mem_discoveries_run _ _ _ _ _ _ _).mp hd
      have hss : e'.slug = e.slug := by
        rw [← slug_of_mem_eventDiscoveries hde', hds]
      rw [hInj e' he' hss] at hde'
      rw [eventDiscoveries_new _ _ _ _ _ _ hslug hb] at hde'
      split at hde'
      · rename_i hcond
        exact (isRecentlyCreated_iff _ _).mp hcond.2
      · simp at hde'
    · intro ha
      refine ⟨discoveryHitOf thresholds vel1h minDiscovery e, ?_, rfl⟩
      apply (mem_discoveries_run _ _ _ _ _ _ _).mpr
      refine ⟨e, he, ?_⟩
      rw [eventDiscoveries_new _ _ _ _ _ _ hslug hb]
      rw [if_pos ⟨hvol, (isRecentlyCreated_iff _ _).mpr ha⟩]
      simp
  constructor
  · exact hiff
  · intro hnone hex
    obtain ⟨a, ha, _⟩ := hiff.mp hex
    rw [hnone] at ha
    exact Option.noConfusion ha

/-- Witness for `discovery_iff_recently_created`: market Y ($30,000,
created 10h ago, floor $25,000, window 48h) yields a discovery; market Z
(same volume, no creation timestamp) yields none. -/
theorem discovery_iff_recently_created_witness :
    (∃ d ∈ (checkVolumeMilestones (fun _ => none) VOLUME_THRESHOLDS
        (fun _ => none) DISCOVERY_MIN_VOLUME 48
        [⟨"market-y", "Y", 30000, some 10, 50⟩]).discoveries,
      d.slug = "market-y") ∧
    (¬ ∃ d ∈ (checkVolumeMilestones (fun _ => none) VOLUME_THRESHOLDS
        (fun _ => none) DISCOVERY_MIN_VOLUME 48
        [⟨"market-z", "Z", 30000, none, 50⟩]).discoveries,
      d.slug = "market-z") := by
  constructor
  · exact (discovery_iff_recently_created (fun _ => none) VOLUME_THRESHOLDS
      (fun _ => none) DISCOVERY_MIN_VOLUME 48
      [⟨"market-y", "Y", 30000, some 10, 50⟩]
      ⟨"market-y", "Y", 30000, some 10, 50⟩
      (by decide) (by decide) (by decide) rfl (by decide)).1.mpr
      ⟨10, rfl, by norm_num⟩
  · exact (discovery_iff_recently_created (fun _ => none) VOLUME_THRESHOLDS
      (fun _ => none) DISCOVERY_MIN_VOLUME 48
      [⟨"market-z", "Z", 30000, none, 50⟩]
      ⟨"market-z", "Z", 30000, none, 50⟩
      (by decide) (by decide) (by decide) rfl (by decide)).2 rfl

/-- Witness for `milestone_candidate_iff_crossing`: the spec's scenario —
baseline $80,000, current $120,000, threshold list containing $100,000 —
yields exactly one milestone candidate with `threshold = 100000` and
`also_crossed = []`. -/
theorem milestone_candidate_iff_crossing_witness :
    (∃ c ∈ (checkVolumeMilestones
        (fun s => if s = "market-x" then some 80000 else none)
        VOLUME_THRESHOLDS (fun _ => none) DISCOVERY_MIN_VOLUME 48
        [⟨"market-x", "X", 120000, none, 50⟩]).milestones,
      c.slug = "market-x") ∧
    (checkVolumeMilestones
        (fun s => if s = "market-x" then some 80000 else none)
        VOLUME_THRESHOLDS (fun _ => none) DISCOVERY_MIN_VOLUME 48
        [⟨"market-x", "X", 120000, none, 50⟩]).milestones =
      [⟨"X", "market-x", 100000, [], 80000, 120000, 50, 0,
        velocityPct 0 120000⟩] ∧
    velocityPct 0 120000 = 0 := by
  refine ⟨?_, rfl, by norm_num [velocityPct]⟩
  exact (milestone_candidate_iff_crossing
    (fun s => if s = "market-x" then some 80000 else none)
    VOLUME_THRESHOLDS (fun _ => none) DISCOVERY_MIN_VOLUME 48
    [⟨"market-x", "X", 120000, none, 50⟩]
    ⟨"market-x", "X", 120000, none, 50⟩ 80000
    (by decide) (by decide) (by decide) (by decide)).1.mpr
    ⟨100000, by decide, by decide, by decide⟩

/-- C7: divide-by-zero safety.  The shared guarded expression evaluates
to 0 at zero total volume (every detector computes its percentage
velocity through it, and in the embedding all operations are total, so
no division error can occur); a zero-volume market is skipped outright
by the wakeup detector — a list of zero-volume markets produces no
wakeup candidates at all — and any fast-mover, early-heat, milestone or
discovery candidate built for a zero-volume market carries
`velocity_pct = 0`. -/
theorem zero_volume_velocity_safe :
    (∀ v : ℚ, velocityPct v 0 = 0) ∧
    (∀ (d1h d6h : String → Option ℚ) (qT hT qH : ℚ) (e : Event),
      e.total_volume = 0 → wakeupStep d1h d6h qT hT qH e = none) ∧
    (∀ (d1h d6h : String → Option ℚ) (qT hT qH : ℚ) (events : List Event),
      (∀ e ∈ events, e.total_volume = 0) →
      checkWakeupAlerts d1h d6h qT hT qH events = []) ∧
    (∀ (pd : String → Option PriceDelta) (vd v1 : String → Option ℚ)
      (pT vT : ℚ) (e : Event) (c : FastMoverHit),
      e.total_volume = 0 → fastMoverStep pd vd v1 pT vT e = some c →
      c.velocity_pct = 0) ∧
    (∀ (d1h fsa : String → Option ℚ) (mV mVP : ℚ) (e : Event) (c : EarlyHeatHit),
      e.total_volume = 0 → earlyHeatStep d1h fsa mV mVP e = some c →
      c.velocity_pct = 0) ∧
    (∀ (baselines : String → Option ℚ) (thresholds : List ℚ)
      (vel1h : String → Option ℚ) (minDiscovery maxAgeHours : ℚ) (e : Event),
      e.total_volume = 0 →
      (∀ c ∈ eventMilestones baselines thresholds vel1h minDiscovery
        maxAgeHours e, c.velocity_pct = 0) ∧
      (∀ d ∈ eventDiscoveries baselines thresholds vel1h minDiscovery
        maxAgeHours e, d.velocity_pct = 0)) := by
  have hvp : ∀ v : ℚ, velocityPct v 0 = 0 := by
    intro v
    simp [velocityPct]
  refine ⟨hvp, ?_, ?_, ?_, ?_, ?_⟩
  · intro d1h d6h qT hT qH e h
    unfold wakeupStep
    rw [if_pos (Or.inr h)]
  · intro d1h d6h qT hT qH events h
    unfold checkWakeupAlerts
    have : events.filterMap (wakeupStep d1h d6h qT hT qH) = [] := by
      rw [List.filterMap_eq_nil_iff]
      intro e he
      unfold wakeupStep
      rw [if_pos (Or.inr (h e he))]
    rw [this]
    rfl
  · intro pd vd v1 pT vT e c h hsome
    by_cases h1 : e.slug = ""
    · rw [fastMoverStep, if_pos h1] at hsome
      exact Option.noConfusion hsome
    · rw [fastMoverStep, if_neg h1] at hsome
      dsimp only at hsome
      split at hsome
      · injection hsome with heq
        rw [← heq]
        show velocityPct ((v1 e.slug).getD 0) e.total_volume = 0
        rw [h]
        exact hvp _
      · exact Option.noConfusion hsome
  · intro d1h fsa mV mVP e c h hsome
    by_cases h1 : e.slug = "" ∨ e.total_volume > mV
    · rw [earlyHeatStep, if_pos h1] at hsome
      exact Option.noConfusion hsome
    · rw [earlyHeatStep, if_neg h1] at hsome
      dsimp only at hsome
      split at hsome
      · exact Option.noConfusion hsome
      · injection hsome with heq
        rw [← heq]
        show velocityPct ((d1h e.slug).getD 0) e.total_volume = 0
        rw [h]
        exact hvp _
  · intro baselines thresholds vel1h minDiscovery maxAgeHours e h
    constructor
    · intro c hc
      by_cases h1 : e.slug = ""
      · rw [eventMilestones_skip _ _ _ _ _ _ h1] at hc
        simp at hc
      · cases hb : baselines e.slug with
        | none =>
          rw [eventMilestones_new _ _ _ _ _ _ h1 hb] at hc
          simp at hc
        | some prev =>
          rw [eventMilestones_prev _ _ _ _ _ _ prev h1 hb] at hc
          split at hc
          · simp at hc
          · have hceq : c = milestoneHitOf thresholds vel1h prev e := by
              simpa using hc
            rw [hceq]
            show velocityPct ((vel1h e.slug).getD 0) e.total_volume = 0
            rw [h]
            exact hvp _
    · intro d hd
      by_cases h1 : e.slug = ""
      · rw [eventDiscoveries_skip _ _ _ _ _ _ h1] at hd
        simp at hd
      · cases hb : baselines e.slug with
        | none =>
          rw [eventDiscoveries_new _ _ _ _ _ _ h1 hb] at hd
          split at hd
          · have hdeq : d = discoveryHitOf thresholds vel1h minDiscovery e := by
              simpa using hd
            rw [hdeq]
            show velocityPct ((vel1h e.slug).getD 0) e.total_volume = 0
            rw [h]
            exact hvp _
          · simp at hd
        | some prev =>
          rw [eventDiscoveries_prev _ _ _ _ _ _ prev h1 hb] at hd
          simp at hd

/-- Witness for `zero_volume_velocity_safe`: concrete zero-volume
evaluations — `velocityPct 7 0 = 0` and a zero-volume market produces no
wakeup candidate. -/
theorem zero_volume_velocity_safe_witness :
    velocityPct 7 0 = 0 ∧
    wakeupStep (fun _ => some 500) (fun _ => some 900) 2 10 6
      ⟨"market-q", "Q", 0, none, 50⟩ = none ∧
    checkWakeupAlerts (fun _ => some 500) (fun _ => some 900) 2 10 6
      [⟨"market-q", "Q", 0, none, 50⟩] = [] :=
  ⟨zero_volume_velocity_safe.1 7,
   zero_volume_velocity_safe.2.1 _ _ 2 10 6 _ rfl,
   zero_volume_velocity_safe.2.2.1 _ _ 2 10 6 _ (by decide)⟩

lemma not_mem_of_shouldFilter_false {cyc : List String}
    {recent : String → Option ℚ} {m : SMarket}
    (h : shouldFilterMarket cyc recent m = false) : m.slug ∉ cyc := by
  intro hmem
  unfold shouldFilterMarket at h
  rw [if_pos hmem] at h
  exact Bool.noConfusion h

lemma deliveredCount_append (ds : List (String × List SMarket))
    (x : String × List SMarket) (slug : String) :
    deliveredCount (ds ++ [x]) slug =
    deliveredCount ds slug + (if slug ∈ x.2.map SMarket.slug then 1 else 0) := by
  unfold deliveredCount
  rw [List.filter_append, List.length_append, List.filter_singleton]
  by_cases h : slug ∈ x.2.map SMarket.slug
  · simp [h]
  · simp [h]

lemma familyStep_invariant (recent : String → Option ℚ) (cap : ℕ)
    (st : CycleState) (fam : String × List SMarket)
    (hP : ∀ slug, familiesDelivering st slug ≤ 1 ∧
      (1 ≤ familiesDelivering st slug → slug ∈ st.cycleAlerted)) :
    ∀ slug, familiesDelivering (familyStep recent cap st fam) slug ≤ 1 ∧
      (1 ≤ familiesDelivering (familyStep recent cap st fam) slug →
        slug ∈ (familyStep recent cap st fam).cycleAlerted) := by
  intro slug
  unfold familyStep
  dsimp only
  split
  · exact hP slug
  · have hfd : familiesDelivering
        { cycleAlerted := st.cycleAlerted ++
            ((fam.2.filter (fun m => !shouldFilterMarket st.cycleAlerted recent m)).take
              cap).map SMarket.slug,
          deliveries := st.deliveries ++
            [(fam.1, (fam.2.filter
              (fun m => !shouldFilterMarket st.cycleAlerted recent m)).take cap)],
          statsCounts := st.statsCounts ++ [(fam.1, (fam.2.filter
            (fun m => !shouldFilterMarket st.cycleAlerted recent m)).length)] }
        slug =
        familiesDelivering st slug + (if slug ∈ ((fam.2.filter
          (fun m => !shouldFilterMarket st.cycleAlerted recent m)).take
            cap).map SMarket.slug then 1 else 0) :=
      deliveredCount_append st.deliveries _ slug
    by_cases hmem : slug ∈ ((fam.2.filter
        (fun m => !shouldFilterMarket st.cycleAlerted recent m)).take
          cap).map SMarket.slug
    · have hnotold : slug ∉ st.cycleAlerted := by
        obtain ⟨m, hm, rfl⟩ := List.mem_map.mp hmem
        have hmf : m ∈ fam.2.filter
            (fun m => !shouldFilterMarket st.cycleAlerted recent m) :=
          List.mem_of_mem_take hm
        have hfp := List.of_mem_filter hmf
        have hff : shouldFilterMarket st.cycleAlerted recent m = false := by
          simpa using hfp
        exact not_mem_of_shouldFilter_false hff
      have hz : familiesDelivering st slug = 0 := by
        by_contra hnz
        exact hnotold ((hP slug).2 (Nat.one_le_iff_ne_zero.mpr hnz))
      constructor
      · rw [hfd, hz, if_pos hmem]
      · intro _
        show slug ∈ st.cycleAlerted ++ _
        rw [List.mem_append]
        right
        exact hmem
    · constructor
      · rw [hfd, if_neg hmem]
        simpa using (hP slug).1
      · intro hge
        rw [hfd, if_neg hmem] at hge
        simp only [Nat.add_zero] at hge
        show slug ∈ st.cycleAlerted ++ _
        rw [List.mem_append]
        left
        exact (hP slug).2 hge

lemma processFamilies_invariant (recent : String → Option ℚ) (cap : ℕ)
    (fams : List (String × List SMarket)) :
    ∀ st : CycleState,
    (∀ slug, familiesDelivering st slug ≤ 1 ∧
      (1 ≤ familiesDelivering st slug → slug ∈ st.cycleAlerted)) →
    ∀ slug, familiesDelivering (processFamilies recent cap fams st) slug ≤ 1 := by
  induction fams with
  | nil => intro st h slug; exact (h slug).1
  | cons fam rest ih =>
    intro st h slug
    exact ih (familyStep recent cap st fam)
      (familyStep_invariant recent cap st fam h) slug

lemma familyStep_deliveries_cases (recent : String → Option ℚ) (cap : ℕ)
    (st : CycleState) (fam : String × List SMarket) :
    (familyStep recent cap st fam).deliveries = st.deliveries ∨
    ∃ b, (familyStep recent cap st fam).deliveries =
      st.deliveries ++ [(fam.1, b)] := by
  unfold familyStep
  dsimp only
  split
  · left
    rfl
  · right
    exact ⟨_, rfl⟩

lemma processFamilies_deliveries_names (recent : String → Option ℚ) (cap : ℕ)
    (fams : List (String × List SMarket)) :
    ∀ st : CycleState, ∃ s,
      (processFamilies recent cap fams st).deliveries = st.deliveries ++ s ∧
      List.Sublist (s.map Prod.fst) (fams.map Prod.fst) := by
  induction fams with
  | nil =>
    intro st
    exact ⟨[], by simp [processFamilies], by simp⟩
  | cons fam rest ih =>
    intro st
    obtain ⟨s, hs, hsub⟩ := ih (familyStep recent cap st fam)
    have hstep := familyStep_deliveries_cases recent cap st fam
    rcases hstep with hd | ⟨b, hd⟩
    · refine ⟨s, ?_, ?_⟩
      · show (processFamilies recent cap rest (familyStep recent cap st fam)).deliveries = _
        rw [hs, hd]
      · exact List.Sublist.cons fam.1 hsub
    · refine ⟨(fam.1, b) :: s, ?_, ?_⟩
      · show (processFamilies recent cap rest (familyStep recent cap st fam)).deliveries = _
        rw [hs, hd]
        simp
      · show List.Sublist (fam.1 :: s.map Prod.fst) (fam.1 :: rest.map Prod.fst)
        exact List.Sublist.cons₂ fam.1 hsub

/-- C8: within one channel-mode alert cycle, every market is delivered
under at most one signal family (the per-cycle working set blocks a
market delivered by an earlier family from all later families), and the
families that do deliver appear in the fixed priority order wakeup,
fast-mover, big-swing, early-heat, new-launch. -/
theorem cycle_family_exclusive_and_ordered (recent : String → Option ℚ)
    (cap : ℕ) (wakeups movers swings early launches : List SMarket)
    (slug : String) :
    familiesDelivering (runAlertCycleChannel recent cap wakeups movers swings
      early launches) slug ≤ 1 ∧
    List.Sublist ((runAlertCycleChannel recent cap wakeups movers swings early
      launches).deliveries.map Prod.fst)
      ["wakeup", "fast_mover", "big_swing", "early_heat", "new_launch"] := by
  constructor
  · apply processFamilies_invariant
    intro s
    constructor
    · show familiesDelivering ⟨[], [], []⟩ s ≤ 1
      simp [familiesDelivering, deliveredCount]
    · intro hge
      simp [familiesDelivering, deliveredCount] at hge
  · obtain ⟨s, hs, hsub⟩ := processFamilies_deliveries_names recent cap
      [("wakeup", wakeups), ("fast_mover", movers), ("big_swing", swings),
       ("early_heat", early), ("new_launch", launches)] ⟨[], [], []⟩
    unfold runAlertCycleChannel
    rw [hs]
    simpa using hsub

/-- C9 counterexample: with the cap at `ALERT_CAP_PER_CYCLE = 10`, a
cycle whose wakeup detector yields 11 qualifying candidates delivers
exactly the same batches (and hence the same bundled message, a function
of the batch) as one yielding only the first 10 — the extra candidate is
dropped with no count of the remainder surfaced in the delivery; only
the cycle stats counter differs. -/
theorem cycle_cap_drops_remainder_without_count :
    (runAlertCycleChannel (fun _ => none) ALERT_CAP_PER_CYCLE
      [⟨"m01", 50⟩, ⟨"m02", 50⟩, ⟨"m03", 50⟩, ⟨"m04", 50⟩, ⟨"m05", 50⟩,
       ⟨"m06", 50⟩, ⟨"m07", 50⟩, ⟨"m08", 50⟩, ⟨"m09", 50⟩, ⟨"m10", 50⟩,
       ⟨"m11", 50⟩] [] [] [] []).deliveries =
    (runAlertCycleChannel (fun _ => none) ALERT_CAP_PER_CYCLE
      [⟨"m01", 50⟩, ⟨"m02", 50⟩, ⟨"m03", 50⟩, ⟨"m04", 50⟩, ⟨"m05", 50⟩,
       ⟨"m06", 50⟩, ⟨"m07", 50⟩, ⟨"m08", 50⟩, ⟨"m09", 50⟩,
       ⟨"m10", 50⟩] [] [] [] []).deliveries ∧
    (runAlertCycleChannel (fun _ => none) ALERT_CAP_PER_CYCLE
      [⟨"m01", 50⟩, ⟨"m02", 50⟩, ⟨"m03", 50⟩, ⟨"m04", 50⟩, ⟨"m05", 50⟩,
       ⟨"m06", 50⟩, ⟨"m07", 50⟩, ⟨"m08", 50⟩, ⟨"m09", 50⟩, ⟨"m10", 50⟩,
       ⟨"m11", 50⟩] [] [] [] []).statsCounts ≠
    (runAlertCycleChannel (fun _ => none) ALERT_CAP_PER_CYCLE
      [⟨"m01", 50⟩, ⟨"m02", 50⟩, ⟨"m03", 50⟩, ⟨"m04", 50⟩, ⟨"m05", 50⟩,
       ⟨"m06", 50⟩, ⟨"m07", 50⟩, ⟨"m08", 50⟩, ⟨"m09", 50⟩,
       ⟨"m10", 50⟩] [] [] [] []).statsCounts := by
  constructor
  · decide
  · decide

/-- C9 (amended): each family block delivers the cap-length leading
segment of the filtered candidate list in the detector's sort order (its
batch plus the dropped remainder reassemble the filtered list, and its
length is `min cap`); the cycle stats record the full pre-truncation
count of qualifying candidates, but the delivered batches are fully
determined by the first `cap` qualifying candidates, so no count of the
dropped remainder accompanies the delivery. -/
theorem cycle_cap_truncation_and_stats (recent : String → Option ℚ) (cap : ℕ)
    (cyc : List String) (ds : List (String × List SMarket))
    (sc : List (String × ℕ)) (fname : String) (cands : List SMarket) :
    (familyStep recent cap ⟨cyc, ds, sc⟩ (fname, cands)).statsCounts =
      sc ++ [(fname, (cands.filter
        (fun m => !shouldFilterMarket cyc recent m)).length)] ∧
    ((cands.filter (fun m => !shouldFilterMarket cyc recent m)).take cap).length
      = min cap (cands.filter (fun m => !shouldFilterMarket cyc recent m)).length ∧
    ((cands.filter (fun m => !shouldFilterMarket cyc recent m)).take cap) ++
      ((cands.filter (fun m => !shouldFilterMarket cyc recent m)).drop cap) =
      cands.filter (fun m => !shouldFilterMarket cyc recent m) ∧
    (0 < cap → ∀ cands2 : List SMarket,
      (cands2.filter (fun m => !shouldFilterMarket cyc recent m)).take cap =
        (cands.filter (fun m => !shouldFilterMarket cyc recent m)).take cap →
      (familyStep recent cap ⟨cyc, ds, sc⟩ (fname, cands2)).deliveries =
        (familyStep recent cap ⟨cyc, ds, sc⟩ (fname, cands)).deliveries) := by
  refine ⟨?_, List.length_take cap _, List.take_append_drop cap _, ?_⟩
  · unfold familyStep
    dsimp only
    split
    · rfl
    · rfl
  · intro hcap cands2 htake
    unfold familyStep
    dsimp only
    by_cases h1 : cands.filter (fun m => !shouldFilterMarket cyc recent m) = []
    · have h2 : cands2.filter (fun m => !shouldFilterMarket cyc recent m) = [] := by
        have ht : (cands2.filter
            (fun m => !shouldFilterMarket cyc recent m)).take cap = [] := by
          rw [htake, h1, List.take_nil]
        rcases List.take_eq_nil_iff.mp ht with hc | hc
        · exact absurd hc (Nat.pos_iff_ne_zero.mp hcap)
        · exact hc
      rw [if_pos (List.isEmpty_iff.mpr h1), if_pos (List.isEmpty_iff.mpr h2)]
    · have h2 : ¬ cands2.filter (fun m => !shouldFilterMarket cyc recent m) = [] := by
        intro h2
        apply h1
        have ht : (cands.filter
            (fun m => !shouldFilterMarket cyc recent m)).take cap = [] := by
          rw [← htake, h2, List.take_nil]
        rcases List.take_eq_nil_iff.mp ht with hc | hc
        · exact absurd hc (Nat.pos_iff_ne_zero.mp hcap)
        · exact hc
      rw [if_neg (fun hcond => h1 (List.isEmpty_iff.mp hcond)),
        if_neg (fun hcond => h2 (List.isEmpty_iff.mp hcond))]
      dsimp only
      rw [htake]

/-- Witness for `cycle_cap_truncation_and_stats`: the 11-candidate wakeup
block records a stats count of 11 while delivering a batch determined by
the first 10 candidates alone. -/
theorem cycle_cap_truncation_and_stats_witness :
    (familyStep (fun _ => none) ALERT_CAP_PER_CYCLE ⟨[], [], []⟩
      ("wakeup",
       [⟨"m01", 50⟩, ⟨"m02", 50⟩, ⟨"m03", 50⟩, ⟨"m04", 50⟩, ⟨"m05", 50⟩,
        ⟨"m06", 50⟩, ⟨"m07", 50⟩, ⟨"m08", 50⟩, ⟨"m09", 50⟩, ⟨"m10", 50⟩,
        ⟨"m11", 50⟩])).statsCounts = [("wakeup", 11)] ∧
    (familyStep (fun _ => none) ALERT_CAP_PER_CYCLE ⟨[], [], []⟩
      ("wakeup",
       [⟨"m01", 50⟩, ⟨"m02", 50⟩, ⟨"m03", 50⟩, ⟨"m04", 50⟩, ⟨"m05", 50⟩,
        ⟨"m06", 50⟩, ⟨"m07", 50⟩, ⟨"m08", 50⟩, ⟨"m09", 50⟩,
        ⟨"m10", 50⟩])).deliveries =
    (familyStep (fun _ => none) ALERT_CAP_PER_CYCLE ⟨[], [], []⟩
      ("wakeup",
       [⟨"m01", 50⟩, ⟨"m02", 50⟩, ⟨"m03", 50⟩, ⟨"m04", 50⟩, ⟨"m05", 50⟩,
        ⟨"m06", 50⟩, ⟨"m07", 50⟩, ⟨"m08", 50⟩, ⟨"m09", 50⟩, ⟨"m10", 50⟩,
        ⟨"m11", 50⟩])).deliveries := by
  constructor
  · have h := (cycle_cap_truncation_and_stats (fun _ => none) ALERT_CAP_PER_CYCLE
      [] [] [] "wakeup"
      [⟨"m01", 50⟩, ⟨"m02", 50⟩, ⟨"m03", 50⟩, ⟨"m04", 50⟩, ⟨"m05", 50⟩,
       ⟨"m06", 50⟩, ⟨"m07", 50⟩, ⟨"m08", 50⟩, ⟨"m09", 50⟩, ⟨"m10", 50⟩,
       ⟨"m11", 50⟩]).1
    rw [h]
    decide
  · exact (cycle_cap_truncation_and_stats (fun _ => none) ALERT_CAP_PER_CYCLE
      [] [] [] "wakeup"
      [⟨"m01", 50⟩, ⟨"m02", 50⟩, ⟨"m03", 50⟩, ⟨"m04", 50⟩, ⟨"m05", 50⟩,
       ⟨"m06", 50⟩, ⟨"m07", 50⟩, ⟨"m08", 50⟩, ⟨"m09", 50⟩, ⟨"m10", 50⟩,
       ⟨"m11", 50⟩]).2.2.2 (by decide) _ (by decide)
